import Mathlib

/-!
Shallow embedding of the pipmaster package manager (pipmaster/package_manager.py and
pipmaster/async_package_manager.py), together with proofs checking the repository's
natural-language specification against the code.

The environment's installed-package metadata is modelled as an association list from
package names to parsed versions.  External subprocess execution is modelled by an
explicit function argument returning an exit code plus captured output streams, and
every function that shells out also returns a trace of the pip-level commands it
constructed and of the external processes it spawned, so that frame properties
("nothing was executed") are expressible.  Python exceptions that escape a function
are modelled by an `Option` result (`none` = an uncaught exception).
-/

namespace Pipmaster

/-! ### Modelled from the spec: the external version-parsing library.

The repository delegates version and requirement parsing to the external `packaging`
library (spec section 6: "a version-specifier evaluation capability (PEP-440-style
predicate matching)").  That library is not part of this repository's sources, so the
definitions below model it from the spec: a version is a dotted release with an
optional pre-release tag, a specifier is a comma-separated conjunction of operator
clauses, versions are compared with zero-padded release segments and pre-releases
ordered before their release, and malformed strings fail to parse (`none`), which
corresponds to `packaging` raising `InvalidRequirement`/`InvalidSpecifier`. -/

/-- A PEP-440-style version: dotted numeric release segments plus an optional
pre-release tag `(phase, number)` with phases a = 0, b = 1, rc = 2. -/
structure Version where
  release : List Nat
  pre : Option (Nat × Nat) := none
deriving DecidableEq, Repr

/-- Comparison operators appearing in version specifiers. -/
inductive SpecOp
  | ge | le | gt | lt | eq | ne | compat
deriving DecidableEq, Repr

/-- One specifier clause, e.g. `>= 1.20`. -/
structure SpecClause where
  op : SpecOp
  ver : Version
deriving DecidableEq, Repr

/-- A specifier set is a conjunction of clauses (possibly empty). -/
abbrev Specifier := List SpecClause

/-- Compare two equal-length (or zero-padded) lists of naturals lexicographically. -/
def cmpNatList : List Nat → List Nat → Ordering
  | [], _ => Ordering.eq
  | _ :: _, [] => Ordering.eq
  | a :: as, b :: bs =>
    if a < b then Ordering.lt else if b < a then Ordering.gt else cmpNatList as bs

/-- Pad a release segment list with zeros up to length `n`. -/
def padZeros (l : List Nat) (n : Nat) : List Nat :=
  l ++ List.replicate (n - l.length) 0

/-- PEP-440 release comparison: both releases are zero-padded to a common length
and compared lexicographically. -/
def releaseCmp (a b : List Nat) : Ordering :=
  cmpNatList (padZeros a (max a.length b.length)) (padZeros b (max a.length b.length))

/-- Pre-release tags order before the plain release of the same number. -/
def preCmp : Option (Nat × Nat) → Option (Nat × Nat) → Ordering
  | none, none => Ordering.eq
  | none, some _ => Ordering.gt
  | some _, none => Ordering.lt
  | some (p, n), some (q, m) =>
    if p < q then Ordering.lt else if q < p then Ordering.gt
    else if n < m then Ordering.lt else if m < n then Ordering.gt else Ordering.eq

/-- Total comparison of versions: release first, pre-release tag as tie-breaker. -/
def versionCmp (x y : Version) : Ordering :=
  match releaseCmp x.release y.release with
  | Ordering.eq => preCmp x.pre y.pre
  | o => o

/-- Test for the `lt` outcome of a comparison. -/
def ordIsLt : Ordering → Bool
  | Ordering.lt => true
  | _ => false

/-- Test for the `gt` outcome of a comparison. -/
def ordIsGt : Ordering → Bool
  | Ordering.gt => true
  | _ => false

/-- Test for the `eq` outcome of a comparison. -/
def ordIsEq : Ordering → Bool
  | Ordering.eq => true
  | _ => false

/-- Evaluate one specifier clause against a candidate version. -/
def evalClause (x : Version) (c : SpecClause) : Bool :=
  match c.op with
  | SpecOp.ge => !(ordIsLt (versionCmp x c.ver))
  | SpecOp.gt => ordIsGt (versionCmp x c.ver)
  | SpecOp.le => !(ordIsGt (versionCmp x c.ver))
  | SpecOp.lt => ordIsLt (versionCmp x c.ver)
  | SpecOp.eq => ordIsEq (versionCmp x c.ver)
  | SpecOp.ne => !(ordIsEq (versionCmp x c.ver))
  | SpecOp.compat =>
    !(ordIsLt (versionCmp x c.ver)) &&
      ordIsEq (releaseCmp (x.release.take (c.ver.release.length - 1))
        (c.ver.release.take (c.ver.release.length - 1)))

/-- Specifier-set membership, `SpecifierSet.contains(x, prereleases=...)`: with
`prereleases = false` a pre-release candidate is rejected outright; otherwise the
candidate must satisfy every clause. -/
def specContains (spec : Specifier) (prereleases : Bool) (x : Version) : Bool :=
  if x.pre.isSome && !prereleases then false else spec.all (evalClause x)

/-- Characters allowed in a package name (letters, digits, dot, dash, underscore). -/
def isNameChar (c : Char) : Bool :=
  c.isAlphanum || c == '.' || c == '-' || c == '_'

/-- Characters a specifier clause can start with. -/
def isOpStart (c : Char) : Bool :=
  c == '>' || c == '<' || c == '=' || c == '!' || c == '~'

/-- Read a digit string as a natural number (the characters are known digits). -/
def digitsToNat (cs : List Char) : Nat :=
  cs.foldl (fun n c => n * 10 + (c.toNat - 48)) 0

/-- Parse a comparison operator from the front of a clause. -/
def parseOp (cs : List Char) : Option (SpecOp × List Char) :=
  match cs with
  | [] => none
  | [c] =>
    if c == '>' then some (SpecOp.gt, [])
    else if c == '<' then some (SpecOp.lt, [])
    else none
  | c1 :: c2 :: rest =>
    if c1 == '>' && c2 == '=' then some (SpecOp.ge, rest)
    else if c1 == '<' && c2 == '=' then some (SpecOp.le, rest)
    else if c1 == '=' && c2 == '=' then some (SpecOp.eq, rest)
    else if c1 == '!' && c2 == '=' then some (SpecOp.ne, rest)
    else if c1 == '~' && c2 == '=' then some (SpecOp.compat, rest)
    else if c1 == '>' then some (SpecOp.gt, c2 :: rest)
    else if c1 == '<' then some (SpecOp.lt, c2 :: rest)
    else none

/-- Split a character list at a separator (fuelled so that the kernel can reduce it). -/
def splitOnCharAux (sep : Char) : Nat → List Char → List (List Char)
  | 0, _ => []
  | fuel + 1, cs =>
    match cs.dropWhile (fun c => c != sep) with
    | [] => [cs.takeWhile (fun c => c != sep)]
    | _ :: rest => cs.takeWhile (fun c => c != sep) :: splitOnCharAux sep fuel rest

/-- Split a character list at every occurrence of a separator. -/
def splitOnChar (sep : Char) (cs : List Char) : List (List Char) :=
  splitOnCharAux sep (cs.length + 1) cs

/-- Parse the dotted release part of a version: every dot-separated group must be a
nonempty digit string. -/
def parseRelease (cs : List Char) : Option (List Nat) :=
  (splitOnChar '.' cs).mapM
    (fun g => if g ≠ [] && g.all Char.isDigit then some (digitsToNat g) else none)

/-- Parse a version string: dotted release, then an optional `a` / `b` / `rc`
pre-release tag. -/
def parseVersionChars (cs : List Char) : Option Version :=
  match parseRelease (cs.takeWhile (fun c => c.isDigit || c == '.')) with
  | none => none
  | some rel =>
    match cs.dropWhile (fun c => c.isDigit || c == '.') with
    | [] => some { release := rel, pre := none }
    | 'r' :: 'c' :: ds =>
      if ds.all Char.isDigit then some { release := rel, pre := some (2, digitsToNat ds) }
      else none
    | 'a' :: ds =>
      if ds.all Char.isDigit then some { release := rel, pre := some (0, digitsToNat ds) }
      else none
    | 'b' :: ds =>
      if ds.all Char.isDigit then some { release := rel, pre := some (1, digitsToNat ds) }
      else none
    | _ => none

/-- Parse one specifier clause: an operator followed by a version. -/
def parseClause (cs : List Char) : Option SpecClause :=
  match parseOp cs with
  | none => none
  | some (op, rest) =>
    match parseVersionChars rest with
    | none => none
    | some v => some { op := op, ver := v }

/-- Parse a comma-separated conjunction of clauses (fuelled for kernel reduction). -/
def parseClausesAux : Nat → List Char → Option Specifier
  | 0, _ => none
  | fuel + 1, cs =>
    match parseClause (cs.takeWhile (fun c => c != ',')) with
    | none => none
    | some cl =>
      match cs.dropWhile (fun c => c != ',') with
      | [] => some [cl]
      | _ :: rest =>
        match parseClausesAux fuel rest with
        | none => none
        | some cls => some (cl :: cls)

/-- Parse a nonempty specifier set from characters. -/
def parseClauses (cs : List Char) : Option Specifier :=
  parseClausesAux (cs.length + 1) cs

/-- Parse a specifier string (spaces ignored), modelling `SpecifierSet(s)`;
`none` corresponds to `InvalidSpecifier`. -/
def specifierOfString (s : String) : Option Specifier :=
  parseClauses (s.data.filter (fun a => a != ' '))

/-- A parsed requirement, modelling `packaging.requirements.Requirement`: the package
name, the raw text of its specifier part (`""` when there is none, matching the
falsiness of `str(req.specifier)`), and the parsed specifier set. -/
structure Req where
  name : String
  rawSpec : String
  specifier : Specifier
deriving DecidableEq, Repr

/-- Build a requirement once the name characters and specifier characters are split. -/
def mkReq (nameChars specChars : List Char) : Option Req :=
  match specChars with
  | [] => some { name := nameChars.asString, rawSpec := "", specifier := [] }
  | _ =>
    match parseClauses specChars with
    | some sp =>
      some { name := nameChars.asString, rawSpec := specChars.asString, specifier := sp }
    | none => none

/-- Combine the name part and the remainder of a requirement string: the name must
be nonempty and start with an alphanumeric character; spaces in the specifier part
are ignored. -/
def parseReqSplit : List Char → List Char → Option Req
  | [], _ => none
  | c :: nameRest, rest =>
    if c.isAlphanum then mkReq (c :: nameRest) (rest.filter (fun a => a != ' '))
    else none

/-- Parse a requirement from characters: a name (leading alphanumeric, then name
characters) followed by an optional specifier; anything else is malformed. -/
def parseReqChars (cs : List Char) : Option Req :=
  parseReqSplit (cs.takeWhile isNameChar) (cs.dropWhile isNameChar)

/-- Parse a requirement string, modelling `Requirement(s)`; `none` corresponds to the
`ValueError` (`InvalidRequirement`) that the callers catch. -/
def parseRequirement (s : String) : Option Req :=
  parseReqChars (s.data.dropWhile (fun c => c == ' '))

/-! ### The environment and the query methods of `PackageManager`. -/

/-- The target environment's installed-package metadata: an association list from
package name to installed version (`importlib.metadata`). -/
abbrev Env := List (String × Version)

/-- Look up the installed version of a package, `PackageManager.get_installed_version`
(`importlib.metadata.version`; `none` models `PackageNotFoundError`). -/
def get_installed_version (env : Env) (packageName : String) : Option Version :=
  env.lookup packageName

/-- Check a version specifier against the installed version,
`PackageManager.is_version_compatible`: not installed gives `false`; the specifier
string is parsed by prefixing the dummy name exactly as the code does
(`Requirement(f"dummy{version_specifier}")`), parse failure (the caught `ValueError`)
gives `false`; otherwise the specifier set is evaluated with `prereleases=True`. -/
def is_version_compatible (env : Env) (packageName : String)
    (versionSpecifier : String) : Bool :=
  match get_installed_version env packageName with
  | none => false
  | some installed =>
    match parseRequirement ("dummy" ++ versionSpecifier) with
    | none => false
    | some req => specContains req.specifier true installed

/-- Check whether a package is installed, `PackageManager.is_installed`: a missing
distribution gives `false`; with a truthy specifier string the version is checked,
and an empty (falsy) specifier string is treated like no specifier. -/
def is_installed (env : Env) (packageName : String)
    (versionSpecifier : Option String) : Bool :=
  match env.lookup packageName with
  | none => false
  | some _ =>
    match versionSpecifier with
    | none => true
    | some s => if s = "" then true else is_version_compatible env packageName s

/-! ### Command construction and execution (`PackageManager._run_command` and friends).

External execution is modelled by `exec : List String → Nat × String × String`, giving
the exit code, captured stdout and captured stderr of the spawned process.  The
`capture_output` / `verbose` flags only change which message is reported, exactly as
in the code. -/

/-- A single space, used by the command loggers. -/
def spaceStr : String := " "

/-- A single quote character, used when echoing dry-run commands. -/
def sq : String := "\x27"

/-- The outcome of one `_run_command` call: the returned boolean and message, the
pip-level command that was handed in (always constructed), and the external
process invocations actually spawned (empty on a dry run). -/
structure RunOutcome where
  success : Bool
  message : String
  constructed : List String
  spawned : List (List String)
deriving DecidableEq, Repr

/-- Test whether a string starts with a dash (`arg.startswith("-")`). -/
def headIsDash (s : String) : Bool :=
  match s.data with
  | c :: _ => c == '-'
  | [] => false

/-- The position where `--dry-run` is inserted: the first index `i > 0` whose
argument does not start with a dash (`next((i for i, arg in enumerate(command) if
i > 0 and not arg.startswith("-")), -1)`; `none` models `-1`). -/
def findNonFlag : List String → Nat → Option Nat
  | [], _ => none
  | a :: rest, i =>
    if 0 < i && !(headIsDash a) then some i else findNonFlag rest (i + 1)

/-- Insertion position for `--dry-run` in a command list. -/
def insertPos (command : List String) : Option Nat :=
  findNonFlag command 0

/-- The dry-run branch of `PackageManager._run_command`: nothing is spawned, and a
success message echoing the would-be command line is returned, with `--dry-run`
inserted for the install/uninstall/download commands; `none` models the uncaught
`IndexError` that `command[0]` raises on an empty command list. -/
def dryRunOutcome (pipBase : List String) (command : List String) : Option RunOutcome :=
  match command with
  | [] => none
  | c0 :: _ =>
    if c0 == "install" || c0 == "uninstall" || c0 == "download" then
      let dryList :=
        match insertPos command with
        | some i => pipBase ++ command.take i ++ ["--dry-run"] ++ command.drop i
        | none => pipBase ++ command ++ ["--dry-run"]
      some { success := true
             message := "Dry run: Command would be " ++ sq ++
               String.intercalate spaceStr dryList ++ sq
             constructed := command
             spawned := [] }
    else
      some { success := true
             message := "Dry run: Command would be " ++ sq ++
               String.intercalate spaceStr (pipBase ++ command) ++ sq
             constructed := command
             spawned := [] }

/-- Execute (or dry-run) a pip command, `PackageManager._run_command`.  On a dry run
nothing is spawned (see `dryRunOutcome`).  Otherwise the full command is spawned
and the exit code is mapped to the boolean result; the `try`/`except` around the
spawn always returns `(False, message)` on an exception, which is absorbed into
`exec`'s exit code. -/
def run_command (pipBase : List String) (exec : List String → Nat × String × String)
    (command : List String) (captureOutput dryRun verbose : Bool) : Option RunOutcome :=
  let commandStrForLog := String.intercalate spaceStr (pipBase ++ command)
  if dryRun then dryRunOutcome pipBase command
  else
    let full := pipBase ++ command
    match exec full with
    | (code, out, err) =>
      if code = 0 then
        some { success := true
               message := if captureOutput then out else "Command executed successfully."
               constructed := command
               spawned := [full] }
      else
        some { success := false
               message :=
                 "Command failed with exit code " ++ toString code ++ ": " ++
                   commandStrForLog ++
                   (if captureOutput then
                     (if out.trim ≠ "" then "\n--- stdout ---\n" ++ out.trim else "") ++
                       (if err.trim ≠ "" then "\n--- stderr ---\n" ++ err.trim else "")
                   else "\nCheck console output for details.")
               constructed := command
               spawned := [full] }

/-- The `--index-url` fragment of an install command. -/
def indexUrlArgs : Option String → List String
  | some u => ["--index-url", u]
  | none => []

/-- The pip command built by `PackageManager.install` for a single package. -/
def installCommand (package : String) (indexUrl : Option String)
    (forceReinstall upgrade : Bool) (extraArgs : List String) : List String :=
  ["install"]
    ++ (if upgrade then ["--upgrade"] else [])
    ++ (if forceReinstall then ["--force-reinstall"] else [])
    ++ indexUrlArgs indexUrl
    ++ extraArgs
    ++ [package]

/-- Install a single package, `PackageManager.install`. -/
def install (pipBase : List String) (exec : List String → Nat × String × String)
    (package : String) (indexUrl : Option String) (forceReinstall upgrade : Bool)
    (extraArgs : List String) (dryRun verbose : Bool) :
    Option (Bool × List RunOutcome) :=
  match run_command pipBase exec (installCommand package indexUrl forceReinstall upgrade extraArgs)
      false dryRun verbose with
  | some r => some (r.success, [r])
  | none => none

/-- The pip command built by `PackageManager.install_multiple` for a batch. -/
def installMultipleCommand (packages : List String) (indexUrl : Option String)
    (forceReinstall upgrade : Bool) (extraArgs : List String) : List String :=
  ["install"]
    ++ (if upgrade then ["--upgrade"] else [])
    ++ (if forceReinstall then ["--force-reinstall"] else [])
    ++ indexUrlArgs indexUrl
    ++ extraArgs
    ++ packages

/-- Install a batch of packages, `PackageManager.install_multiple`: an empty batch
succeeds immediately without building or running anything. -/
def install_multiple (pipBase : List String) (exec : List String → Nat × String × String)
    (packages : List String) (indexUrl : Option String) (forceReinstall upgrade : Bool)
    (extraArgs : List String) (dryRun verbose : Bool) :
    Option (Bool × List RunOutcome) :=
  if packages = [] then some (true, [])
  else
    match run_command pipBase exec
        (installMultipleCommand packages indexUrl forceReinstall upgrade extraArgs)
        (!verbose) dryRun verbose with
    | some r => some (r.success, [r])
    | none => none

/-- Uninstall a batch of packages, `PackageManager.uninstall_multiple`: an empty batch
succeeds immediately without building or running anything. -/
def uninstall_multiple (pipBase : List String) (exec : List String → Nat × String × String)
    (packages : List String) (extraArgs : List String) (dryRun verbose : Bool) :
    Option (Bool × List RunOutcome) :=
  if packages = [] then some (true, [])
  else
    match run_command pipBase exec (["uninstall", "-y"] ++ packages ++ extraArgs)
        false dryRun verbose with
    | some r => some (r.success, [r])
    | none => none

/-! ### The requirement reconciler, `PackageManager._get_packages_to_process`. -/

/-- The three accepted shapes of a requirements argument: a single string, an ordered
list of requirement strings, or an ordered name-to-optional-specifier mapping
(Python dictionaries preserve insertion order). -/
inductive Requirements
  | str (s : String)
  | list (l : List String)
  | dict (d : List (String × Option String))

/-- The loop of `_get_packages_to_process` over a list of requirement strings:
malformed items are skipped (`except ValueError: continue`), a package name already
processed is skipped (dedup for list input), a met requirement contributes nothing,
and an unmet one contributes its original string. -/
def goList (env : Env) : List String → List String → List String
  | [], _ => []
  | item :: rest, processed =>
    match parseRequirement item with
    | none => goList env rest processed
    | some r =>
      if processed.contains r.name then goList env rest processed
      else
        if is_installed env r.name (if r.rawSpec = "" then none else some r.rawSpec) then
          goList env rest (r.name :: processed)
        else item :: goList env rest (r.name :: processed)

/-- The loop of `_get_packages_to_process` over dictionary items: the key is parsed
as a requirement (its specifier, if any, is discarded with a warning in favour of
the value), a malformed key is skipped, and an unmet requirement contributes
`name + (specifier or "")`.  The `processed_packages` set is still updated but is
never consulted on the dictionary path. -/
def goDict (env : Env) : List (String × Option String) → List String → List String
  | [], _ => []
  | (key, spec) :: rest, processed =>
    match parseRequirement key with
    | none => goDict env rest processed
    | some reqCheck =>
      if is_installed env reqCheck.name spec then
        goDict env rest (reqCheck.name :: processed)
      else
        (reqCheck.name ++ spec.getD "") :: goDict env rest (reqCheck.name :: processed)

/-- Reconcile requirements against the environment,
`PackageManager._get_packages_to_process` (the `verbose` flag only logs and is
omitted).  A falsy argument returns `[]`; a single string is wrapped into a
one-element list. -/
def get_packages_to_process (env : Env) : Requirements → List String
  | Requirements.str s => if s = "" then [] else goList env [s] []
  | Requirements.list l => goList env l []
  | Requirements.dict d => goDict env d []

/-- Python truthiness of the requirements argument (`if not requirements`). -/
def requirementsEmpty : Requirements → Bool
  | Requirements.str s => s == ""
  | Requirements.list l => l.isEmpty
  | Requirements.dict d => d.isEmpty

/-- Ensure a set of requirements, `PackageManager.ensure_packages`: empty requirements
succeed immediately; a fully met set succeeds without building a command; otherwise
the unmet list is installed in one batch with `force_reinstall=False, upgrade=True`. -/
def ensure_packages (env : Env) (pipBase : List String)
    (exec : List String → Nat × String × String) (requirements : Requirements)
    (indexUrl : Option String) (extraArgs : List String) (dryRun verbose : Bool) :
    Option (Bool × List RunOutcome) :=
  if requirementsEmpty requirements then some (true, [])
  else
    match get_packages_to_process env requirements with
    | [] => some (true, [])
    | pkgs =>
      install_multiple pipBase exec pkgs indexUrl false true extraArgs dryRun verbose

/-- Python `a or b` on optional strings: an empty string is falsy. -/
def pyOrStr : Option String → Option String → Option String
  | some s, b => if s = "" then b else some s
  | none, b => b

/-- Conditionally install one package, `PackageManager.install_if_missing` (with the
deprecated `version` / `enforce_version` arguments left at their defaults).  When the
package is installed but its effective specifier is unmet (or `always_update` is
set), it re-installs with `upgrade=True` and `force_reinstall = needs_install and
effective_specifier is not None`; when absent it installs with
`upgrade=always_update` and no force flag.  `none` models the `NameError` the code
raises when the requirement string is malformed yet the bare name is installed and
needs action (line 367 references the undefined `req`). -/
def install_if_missing (env : Env) (pipBase : List String)
    (exec : List String → Nat × String × String) (package : String)
    (versionSpecifier : Option String) (alwaysUpdate : Bool) (indexUrl : Option String)
    (extraArgs : List String) (dryRun verbose : Bool) :
    Option (Bool × List RunOutcome) :=
  match parseRequirement package with
  | some req =>
    let effectiveSpecifier :=
      pyOrStr versionSpecifier (if req.rawSpec = "" then none else some req.rawSpec)
    if is_installed env req.name none then
      let needsInstall :=
        (match effectiveSpecifier with
         | some s => !(is_version_compatible env req.name s)
         | none => false) || alwaysUpdate
      if needsInstall then
        let installTarget :=
          if req.rawSpec ≠ "" then package else req.name ++ effectiveSpecifier.getD ""
        install pipBase exec installTarget indexUrl
          (needsInstall && effectiveSpecifier.isSome) true extraArgs dryRun verbose
      else some (true, [])
    else
      let installTarget :=
        if req.rawSpec ≠ "" then package else req.name ++ effectiveSpecifier.getD ""
      install pipBase exec installTarget indexUrl false alwaysUpdate extraArgs dryRun verbose
  | none =>
    let effectiveSpecifier := pyOrStr versionSpecifier none
    if is_installed env package none then
      let needsInstall :=
        (match effectiveSpecifier with
         | some s => !(is_version_compatible env package s)
         | none => false) || alwaysUpdate
      if needsInstall then none
      else some (true, [])
    else
      install pipBase exec (package ++ effectiveSpecifier.getD "") indexUrl false
        alwaysUpdate extraArgs dryRun verbose

/-! ### Vulnerability audit, `PackageManager.check_vulnerabilities`.

`which` models `shutil.which` (PATH lookup) and `runShell` models the shell
invocation of the audit tool, returning exit code, stdout and stderr.  The result
also carries the list of audit commands actually spawned. -/

/-- Python truthiness of an optional string argument. -/
def optTruthy : Option String → Bool
  | some s => !(s == "")
  | none => false

/-- Check for vulnerabilities with pip-audit, `PackageManager.check_vulnerabilities`.
A missing executable conservatively reports `(True, "pip-audit not found.")` without
spawning anything; exit code 0 maps to no vulnerabilities, 1 to vulnerabilities
found, anything else to a tool error (also reported as `True`). -/
def check_vulnerabilities (which : String → Option String)
    (runShell : List String → Nat × String × String)
    (packageName requirementsFile : Option String) (extraArgs : List String) :
    (Bool × String) × List (List String) :=
  match which "pip-audit" with
  | none => ((true, "pip-audit not found."), [])
  | some exe =>
    let command := [exe]
      ++ (if optTruthy packageName then []
          else if optTruthy requirementsFile then ["-r", requirementsFile.getD ""]
          else [])
      ++ extraArgs
    match runShell command with
    | (code, out, err) =>
      if code = 0 then ((false, out), [command])
      else if code = 1 then
        ((true, "Vulnerabilities found:\n" ++ out ++ "\n" ++ err), [command])
      else ((true, "pip-audit error:\n" ++ err), [command])

/-! ### The asynchronous manager, `AsyncPackageManager`.

The async variant delegates its requirement checks to the synchronous logic and only
changes how the subprocess is awaited, so its embedding reuses the same pure
functions; a dry run is delegated to the synchronous `_run_command` with its default
`capture_output=False, verbose=False`, exactly as in the code. -/

/-- Run a command asynchronously, `AsyncPackageManager._run_command`. -/
def async_run_command (pipBase : List String)
    (exec : List String → Nat × String × String) (command : List String)
    (captureOutput dryRun verbose : Bool) : Option RunOutcome :=
  if dryRun then run_command pipBase exec command false true false
  else
    let full := pipBase ++ command
    match exec full with
    | (code, out, err) =>
      if code = 0 then
        some { success := true
               message := if out = "" then "Command executed successfully." else out
               constructed := command
               spawned := [full] }
      else
        some { success := false
               message := "[Async] Command failed (code " ++ toString code ++ "): " ++
                 String.intercalate spaceStr full ++
                 (if out ≠ "" then "\n--- stdout ---\n" ++ out.trim else "") ++
                 (if err ≠ "" then "\n--- stderr ---\n" ++ err.trim else "")
               constructed := command
               spawned := [full] }

/-- Install a batch asynchronously, `AsyncPackageManager.install_multiple`: an empty
batch succeeds immediately without building or running anything. -/
def async_install_multiple (pipBase : List String)
    (exec : List String → Nat × String × String) (packages : List String)
    (indexUrl : Option String) (forceReinstall upgrade : Bool) (extraArgs : List String)
    (dryRun verbose : Bool) : Option (Bool × List RunOutcome) :=
  if packages = [] then some (true, [])
  else
    match async_run_command pipBase exec
        (installMultipleCommand packages indexUrl forceReinstall upgrade extraArgs)
        false dryRun verbose with
    | some r => some (r.success, [r])
    | none => none

/-- Ensure requirements asynchronously, `AsyncPackageManager.ensure_packages`: it runs
the same reconciliation and then installs the unmet batch with
`force_reinstall=False, upgrade=True`. -/
def async_ensure_packages (env : Env) (pipBase : List String)
    (exec : List String → Nat × String × String) (requirements : Requirements)
    (indexUrl : Option String) (extraArgs : List String) (dryRun verbose : Bool) :
    Option (Bool × List RunOutcome) :=
  match get_packages_to_process env requirements with
  | [] => some (true, [])
  | pkgs =>
    async_install_multiple pipBase exec pkgs indexUrl false true extraArgs dryRun verbose

/-- Check for vulnerabilities asynchronously,
`AsyncPackageManager.check_vulnerabilities`; the missing-tool branch is identical to
the synchronous one, and on the happy path only the order of the `requirements_file`
/ `package_name` checks differs. -/
def async_check_vulnerabilities (which : String → Option String)
    (runShell : List String → Nat × String × String)
    (packageName requirementsFile : Option String) (extraArgs : List String) :
    (Bool × String) × List (List String) :=
  match which "pip-audit" with
  | none => ((true, "pip-audit not found."), [])
  | some exe =>
    let command := [exe]
      ++ (if optTruthy requirementsFile then ["-r", requirementsFile.getD ""] else [])
      ++ extraArgs
    match runShell command with
    | (code, out, err) =>
      if code = 0 then ((false, out), [command])
      else if code = 1 then
        ((true, "Vulnerabilities found:\n" ++ out ++ "\n" ++ err), [command])
      else ((true, "pip-audit error:\n" ++ err), [command])

/-! ### Specification-side helpers used only to state the claims. -/

/-- Whether one list-input requirement string is met in the environment: malformed
strings are vacuously fine (the reconciler skips them), otherwise the named package
must be installed and meet the item's own specifier. -/
def listItemMet (env : Env) (item : String) : Bool :=
  match parseRequirement item with
  | none => true
  | some r => is_installed env r.name (if r.rawSpec = "" then none else some r.rawSpec)

/-- Whether every requirement of a requirements argument is met in the environment. -/
def requirementsAllMet (env : Env) : Requirements → Bool
  | Requirements.str s => listItemMet env s
  | Requirements.list l => l.all (listItemMet env)
  | Requirements.dict d =>
    d.all (fun e =>
      match parseRequirement e.1 with
      | none => true
      | some r => is_installed env r.name e.2)

/-- The unmet-entry rendering for one dictionary item: `none` if the key is malformed
or the requirement is met, otherwise the parsed name concatenated with the original
specifier text. -/
def dictUnmetTarget (env : Env) (e : String × Option String) : Option String :=
  match parseRequirement e.1 with
  | none => none
  | some r =>
    if is_installed env r.name e.2 then none else some (r.name ++ e.2.getD "")

/-- First-occurrence-wins deduplication by parsed package name, keeping malformed
entries (which never register a name). -/
def dedupByName : List String → List String → List String
  | [], _ => []
  | s :: rest, seen =>
    match parseRequirement s with
    | none => s :: dedupByName rest seen
    | some r =>
      if seen.contains r.name then dedupByName rest seen
      else s :: dedupByName rest (r.name :: seen)

/-! ## Helper lemmas about the parsers. -/

/-- A successfully parsed operator starts with one of the five operator characters. -/
lemma parseOp_head (c : Char) (r : List Char) (p : SpecOp × List Char)
    (h : parseOp (c :: r) = some p) : isOpStart c = true := by
  cases r with
  | nil =>
    simp only [parseOp] at h
    repeat' split at h
    all_goals simp_all [isOpStart]
  | cons c2 t =>
    simp only [parseOp] at h
    repeat' split at h
    all_goals simp_all [isOpStart]

/-- A successfully parsed clause is nonempty and starts with an operator character. -/
lemma parseClause_head (l : List Char) (cl : SpecClause) (h : parseClause l = some cl) :
    ∃ c t, l = c :: t ∧ isOpStart c = true := by
  unfold parseClause at h
  cases hp : parseOp l with
  | none => rw [hp] at h; simp at h
  | some p =>
    cases l with
    | nil => simp [parseOp] at hp
    | cons c t => exact ⟨c, t, rfl, parseOp_head c t p hp⟩

/-- A successfully parsed specifier set is nonempty and starts with an operator
character. -/
lemma parseClausesAux_head (fuel : Nat) (l : List Char) (sp : Specifier)
    (h : parseClausesAux fuel l = some sp) :
    ∃ c t, l = c :: t ∧ isOpStart c = true := by
  cases fuel with
  | zero => simp [parseClausesAux] at h
  | succ n =>
    rw [parseClausesAux] at h
    cases hc : parseClause (l.takeWhile (fun c => c != ',')) with
    | none => rw [hc] at h; simp at h
    | some cl =>
      obtain ⟨c, t, hlt, hop⟩ := parseClause_head _ _ hc
      cases l with
      | nil => simp at hlt
      | cons x xs =>
        rw [List.takeWhile_cons] at hlt
        by_cases hx : (x != ',') = true
        · rw [if_pos hx] at hlt
          obtain ⟨hxc, -⟩ := List.cons.inj hlt
          exact ⟨x, xs, rfl, hxc ▸ hop⟩
        · rw [if_neg hx] at hlt; simp at hlt

/-- Specifier-set version of the head-character fact. -/
lemma parseClauses_head (l : List Char) (sp : Specifier) (h : parseClauses l = some sp) :
    ∃ c t, l = c :: t ∧ isOpStart c = true :=
  parseClausesAux_head _ l sp h

/-- Operator characters are not package-name characters. -/
lemma opStart_not_name (c : Char) (h : isOpStart c = true) : isNameChar c = false := by
  simp [isOpStart] at h
  rcases h with ((((h | h) | h) | h) | h) <;> subst h <;> decide

/-- If filtering the spaces out of a list leaves an operator character in front,
the list's own head is not a name character (it is either that operator character
or a space). -/
lemma head_notNameChar_of_filter (x : Char) (xs : List Char) (c : Char) (t : List Char)
    (hf : (x :: xs).filter (fun a => a != ' ') = c :: t) (hc : isOpStart c = true) :
    isNameChar x = false := by
  rw [List.filter_cons] at hf
  by_cases hx : (x != ' ') = true
  · rw [if_pos hx] at hf
    obtain ⟨h1, -⟩ := List.cons.inj hf
    exact h1 ▸ opStart_not_name c hc
  · have : x = ' ' := by simpa using hx
    subst this; decide

/-- Parsing `"dummy" + s` for a string `s` that denotes a valid specifier set yields
the name `dummy` together with exactly that specifier set — the trick
`Requirement(f"dummy{version_specifier}")` used by `is_version_compatible`. -/
lemma parseRequirement_dummy (s : String) (sp : Specifier)
    (hs : specifierOfString s = some sp) :
    parseRequirement ("dummy" ++ s) =
      some { name := "dummy", rawSpec := (s.data.filter (fun a => a != ' ')).asString,
             specifier := sp } := by
  have hdata : ("dummy" ++ s).data = 'd' :: 'u' :: 'm' :: 'm' :: 'y' :: s.data := by
    rw [String.data_append]; rfl
  unfold specifierOfString at hs
  unfold parseRequirement
  rw [hdata]
  cases hsd : s.data with
  | nil =>
    rw [hsd] at hs
    obtain ⟨c, t, hft, -⟩ := parseClauses_head _ _ hs
    simp at hft
  | cons y ys =>
    rw [hsd] at hs
    obtain ⟨c, t, hft, hop⟩ := parseClauses_head _ _ hs
    have hy : isNameChar y = false := head_notNameChar_of_filter y ys c t hft hop
    have hdw : ('d' :: 'u' :: 'm' :: 'm' :: 'y' :: y :: ys).dropWhile (fun c => c == ' ') =
        'd' :: 'u' :: 'm' :: 'm' :: 'y' :: y :: ys := rfl
    have h2 : ('d' :: 'u' :: 'm' :: 'm' :: 'y' :: y :: ys).takeWhile isNameChar =
        'd' :: 'u' :: 'm' :: 'm' :: 'y' :: (y :: ys).takeWhile isNameChar := rfl
    have h3 : (y :: ys).takeWhile isNameChar = [] := by
      rw [List.takeWhile_cons, hy]; simp
    have h4 : ('d' :: 'u' :: 'm' :: 'm' :: 'y' :: y :: ys).dropWhile isNameChar =
        (y :: ys).dropWhile isNameChar := rfl
    have h5 : (y :: ys).dropWhile isNameChar = y :: ys := by
      rw [List.dropWhile_cons, hy]; simp
    unfold parseReqChars
    rw [hdw, h2, h3, h4, h5]
    have h6 : parseReqSplit ('d' :: 'u' :: 'm' :: 'm' :: 'y' :: []) (y :: ys) =
        mkReq ('d' :: 'u' :: 'm' :: 'm' :: 'y' :: []) ((y :: ys).filter (fun a => a != ' ')) := rfl
    rw [h6, hft]
    rw [hft] at hs
    simp only [mkReq]
    rw [hs]
    rfl

/-! ## Claim C1. -/

/-- C1: `is_installed(package_name, version_specifier)` returns `True` if and only if
the named package is installed AND (no specifier was given OR the installed version
satisfies the specifier, with pre-releases included in the comparison — the `true`
flag of `specContains`); an absent package or an unsatisfied specifier gives
`False`.  The specifier string is assumed to denote a valid specifier set. -/
theorem is_installed_iff_requirement_met (env : Env) (pkg s : String) (sp : Specifier)
    (hs : specifierOfString s = some sp) :
    (is_installed env pkg (some s) = true ↔
      ∃ v, env.lookup pkg = some v ∧ specContains sp true v = true) ∧
    (is_installed env pkg none = true ↔ (env.lookup pkg).isSome) := by
  have hne : s ≠ "" := by
    intro h0
    subst h0
    simp [specifierOfString, parseClauses, parseClausesAux, parseClause, parseOp] at hs
  constructor
  · cases hv : env.lookup pkg with
    | none => simp [is_installed, hv]
    | some v =>
      have hd := parseRequirement_dummy s sp hs
      simp [is_installed, hv, hne, is_version_compatible, get_installed_version, hd]
  · cases hv : env.lookup pkg with
    | none => simp [is_installed, hv]
    | some v => simp [is_installed, hv]

/-- Witness for C1 at an environment holding numpy 1.21 and the specifier `>=1.20`. -/
theorem is_installed_iff_requirement_met_witness :
    specifierOfString ">=1.20" =
      some [{ op := SpecOp.ge, ver := { release := [1, 20], pre := none } }] ∧
    ((is_installed [("numpy", { release := [1, 21], pre := none })] "numpy"
        (some ">=1.20") = true ↔
      ∃ v, (([("numpy", { release := [1, 21], pre := none })] : Env).lookup "numpy") =
          some v ∧
        specContains [{ op := SpecOp.ge, ver := { release := [1, 20], pre := none } }]
          true v = true) ∧
     (is_installed [("numpy", { release := [1, 21], pre := none })] "numpy" none = true ↔
      (([("numpy", { release := [1, 21], pre := none })] : Env).lookup "numpy").isSome)) :=
  ⟨by decide,
   is_installed_iff_requirement_met [("numpy", { release := [1, 21], pre := none })]
     "numpy" ">=1.20" [{ op := SpecOp.ge, ver := { release := [1, 20], pre := none } }]
     (by decide)⟩

/-! ## Helper lemmas about the reconciler loops. -/

/-- The dictionary loop never consults its `processed` set: it is exactly a
`filterMap` of the unmet-entry rendering over the items in order. -/
lemma goDict_eq_filterMap (env : Env) (d : List (String × Option String)) :
    ∀ processed, goDict env d processed = d.filterMap (dictUnmetTarget env) := by
  induction d with
  | nil => intro processed; rfl
  | cons e rest ih =>
    intro processed
    obtain ⟨k, v⟩ := e
    simp only [goDict, List.filterMap_cons, dictUnmetTarget]
    cases hk : parseRequirement k with
    | none => exact ih processed
    | some r =>
      by_cases hi : is_installed env r.name v = true
      · simp only [hi, if_true]
        exact ih _
      · simp only [hi, if_false, Bool.false_eq_true]
        rw [ih _]

/-- The list loop returns a subsequence of its input. -/
lemma goList_sublist (env : Env) (l : List String) :
    ∀ processed, (goList env l processed).Sublist l := by
  induction l with
  | nil => intro processed; simp [goList]
  | cons item rest ih =>
    intro processed
    cases hk : parseRequirement item with
    | none =>
      simp only [goList, hk]
      exact List.Sublist.cons item (ih processed)
    | some r =>
      simp only [goList, hk]
      by_cases hc : processed.contains r.name = true
      · simp only [hc]
        exact List.Sublist.cons item (ih processed)
      · simp only [Bool.not_eq_true] at hc
        simp only [hc]
        by_cases hi : is_installed env r.name
            (if r.rawSpec = "" then none else some r.rawSpec) = true
        · simp only [hi]
          exact List.Sublist.cons item (ih _)
        · simp only [Bool.not_eq_true] at hi
          simp only [hi]
          exact List.Sublist.cons₂ item (ih _)

/-- Pointwise domination of `filterMap` functions yields a sublist. -/
lemma filterMap_sublist_of_pointwise {α β : Type} (f g : α → Option β) (d : List α)
    (h : ∀ e ∈ d, f e = none ∨ f e = g e) :
    (d.filterMap f).Sublist (d.filterMap g) := by
  induction d with
  | nil => simp
  | cons a rest ih =>
    have ha := h a (List.mem_cons_self a rest)
    have ih' := ih (fun e he => h e (List.mem_cons_of_mem a he))
    rw [List.filterMap_cons, List.filterMap_cons]
    rcases ha with ha | ha
    · rw [ha]
      cases hg : g a with
      | none => exact ih'
      | some b => exact List.Sublist.cons b ih'
    · rw [ha]
      cases hg : g a with
      | none => exact ih'
      | some b => exact List.Sublist.cons₂ b ih'

/-- Skipping malformed entries first does not change the list loop's result. -/
lemma goList_filter_valid (env : Env) (l : List String) :
    ∀ processed, goList env l processed =
      goList env (l.filter (fun s => (parseRequirement s).isSome)) processed := by
  induction l with
  | nil => intro processed; rfl
  | cons item rest ih =>
    intro processed
    rw [List.filter_cons]
    cases hk : parseRequirement item with
    | none =>
      simp only [hk, Option.isSome_none, Bool.false_eq_true, if_false]
      simp only [goList, hk]
      exact ih processed
    | some r =>
      simp only [hk, Option.isSome_some, if_true]
      simp only [goList, hk]
      by_cases hc : processed.contains r.name = true
      · simp only [hc]
        exact ih processed
      · simp only [Bool.not_eq_true] at hc
        simp only [hc]
        by_cases hi : is_installed env r.name
            (if r.rawSpec = "" then none else some r.rawSpec) = true
        · simp only [hi]
          exact ih _
        · simp only [Bool.not_eq_true] at hi
          simp only [hi, Bool.false_eq_true, if_false]
          rw [ih _]

/-- First-occurrence deduplication first does not change the list loop's result,
provided the dedup seed matches the loop's `processed` set. -/
lemma goList_dedup (env : Env) (l : List String) :
    ∀ seen, goList env l seen = goList env (dedupByName l seen) seen := by
  induction l with
  | nil => intro seen; rfl
  | cons item rest ih =>
    intro seen
    cases hk : parseRequirement item with
    | none =>
      simp only [goList, dedupByName, hk]
      exact ih seen
    | some r =>
      simp only [goList, dedupByName, hk]
      by_cases hc : seen.contains r.name = true
      · simp only [hc]
        exact ih seen
      · simp only [Bool.not_eq_true] at hc
        simp only [hc]
        simp only [goList, hk, Bool.not_eq_true, hc]
        by_cases hi : is_installed env r.name
            (if r.rawSpec = "" then none else some r.rawSpec) = true
        · simp only [hi]
          exact ih _
        · simp only [Bool.not_eq_true] at hi
          simp only [hi, Bool.false_eq_true, if_false]
          rw [ih _]

/-- A fully met list of requirements leaves the list loop empty. -/
lemma goList_all_met (env : Env) (l : List String)
    (h : l.all (listItemMet env) = true) :
    ∀ processed, goList env l processed = [] := by
  induction l with
  | nil => intro processed; rfl
  | cons item rest ih =>
    rw [List.all_cons, Bool.and_eq_true] at h
    obtain ⟨h1, h2⟩ := h
    intro processed
    simp only [goList]
    cases hk : parseRequirement item with
    | none => exact ih h2 processed
    | some r =>
      have hi : is_installed env r.name
          (if r.rawSpec = "" then none else some r.rawSpec) = true := by
        unfold listItemMet at h1
        rw [hk] at h1
        exact h1
      by_cases hc : processed.contains r.name = true
      · simp only [hc, if_true]
        exact ih h2 processed
      · simp only [hc, if_false, Bool.false_eq_true, hi, if_true]
        exact ih h2 _

/-- A fully met dictionary of requirements leaves the dictionary loop empty. -/
lemma goDict_all_met (env : Env) (d : List (String × Option String))
    (h : d.all (fun e =>
      match parseRequirement e.1 with
      | none => true
      | some r => is_installed env r.name e.2) = true) :
    ∀ processed, goDict env d processed = [] := by
  induction d with
  | nil => intro processed; rfl
  | cons e rest ih =>
    rw [List.all_cons, Bool.and_eq_true] at h
    obtain ⟨h1, h2⟩ := h
    intro processed
    obtain ⟨k, v⟩ := e
    cases hk : parseRequirement k with
    | none =>
      simp only [goDict, hk]
      exact ih h2 processed
    | some r =>
      simp only [hk] at h1
      simp only [goDict, hk, h1]
      exact ih h2 _

/-! ## Claim C2. -/

/-- C2: on mapping input, reconciliation returns exactly the entries whose package
is absent or whose installed version misses the specifier, rendered as the parsed
name followed by the original specifier text, in order (the `filterMap`
characterisation); in particular `{"numpy": ">=1.20"}` with numpy absent gives
`["numpy>=1.20"]`, and `{"requests": ">=2.0"}` with requests 1.0 installed gives
`["requests>=2.0"]` — the original specifier is preserved, not a forced pin. -/
theorem reconcile_dict_unmet_exactly :
    (∀ (env : Env) (d : List (String × Option String)),
      get_packages_to_process env (Requirements.dict d) =
        d.filterMap (dictUnmetTarget env)) ∧
    get_packages_to_process [] (Requirements.dict [("numpy", some ">=1.20")]) =
      ["numpy>=1.20"] ∧
    get_packages_to_process [("requests", { release := [1, 0], pre := none })]
      (Requirements.dict [("requests", some ">=2.0")]) = ["requests>=2.0"] := by
  refine ⟨?_, by decide, by decide⟩
  intro env d
  exact goDict_eq_filterMap env d []

/-! ## Claim C4. -/

/-- C4: malformed requirement strings in a list are skipped and the rest proceed:
reconciling the full list equals reconciling the sublist of parseable entries (so no
valid entry is dropped, and — the model being a total function — no exception
escapes the batch); concretely a malformed entry next to a valid unmet one leaves
exactly the valid one in the result. -/
theorem reconcile_skips_malformed :
    (∀ (env : Env) (l : List String),
      get_packages_to_process env (Requirements.list l) =
        get_packages_to_process env
          (Requirements.list (l.filter (fun s => (parseRequirement s).isSome)))) ∧
    get_packages_to_process [] (Requirements.list ["numpy>=1.20", "!!bad!!"]) =
      ["numpy>=1.20"] := by
  refine ⟨?_, by decide⟩
  intro env l
  exact goList_filter_valid env l []

/-! ## Claim C5. -/

/-- C5: on list input, the first occurrence of a package name wins and later
duplicates are ignored silently: reconciliation is unchanged by first-occurrence
deduplication, and on `["numpy", "numpy>=1.0"]` (numpy absent) only the first
occurrence `"numpy"` is processed — the duplicate contributes nothing. -/
theorem reconcile_dedup_first_occurrence :
    (∀ (env : Env) (l : List String),
      get_packages_to_process env (Requirements.list l) =
        get_packages_to_process env (Requirements.list (dedupByName l []))) ∧
    get_packages_to_process [] (Requirements.list ["numpy", "numpy>=1.0"]) = ["numpy"] ∧
    dedupByName ["numpy", "numpy>=1.0"] [] = ["numpy"] := by
  refine ⟨?_, by decide, by decide⟩
  intro env l
  exact goList_dedup env l []

/-! ## Claim C6. -/

/-- C6: the unmet list preserves input encounter order: for every input shape the
result is a subsequence of the input's rendered entries in order, so if requirement
A is encountered before B and both are unmet, A appears before B in the output. -/
theorem reconcile_preserves_order :
    (∀ (env : Env) (s : String),
      (get_packages_to_process env (Requirements.str s)).Sublist [s]) ∧
    (∀ (env : Env) (l : List String),
      (get_packages_to_process env (Requirements.list l)).Sublist l) ∧
    (∀ (env : Env) (d : List (String × Option String)),
      (get_packages_to_process env (Requirements.dict d)).Sublist
        (d.filterMap (fun e =>
          (parseRequirement e.1).map (fun r => r.name ++ e.2.getD "")))) := by
  refine ⟨?_, ?_, ?_⟩
  · intro env s
    by_cases h : s = ""
    · simp [get_packages_to_process, h]
    · simpa [get_packages_to_process, h] using goList_sublist env [s] []
  · intro env l
    exact goList_sublist env l []
  · intro env d
    rw [show get_packages_to_process env (Requirements.dict d) =
      d.filterMap (dictUnmetTarget env) from goDict_eq_filterMap env d []]
    apply filterMap_sublist_of_pointwise
    intro e he
    unfold dictUnmetTarget
    cases hk : parseRequirement e.1 with
    | none => left; rfl
    | some r =>
      by_cases hi : is_installed env r.name e.2 = true
      · left; simp [hi]
      · right; simp [hi]

/-! ## Claim C9. -/

/-- C9: the empty batch succeeds with the environment untouched: `install_multiple`
and `uninstall_multiple` on `[]`, `ensure_packages` on an empty string, empty list
or empty dict, and the asynchronous `install_multiple` on `[]` all return `True`
without constructing or running any package-manager command (an empty trace). -/
theorem empty_batch_success :
    ∀ (env : Env) (pipBase : List String) (exec : List String → Nat × String × String)
      (indexUrl : Option String) (fr up : Bool) (extraArgs : List String) (dr vb : Bool),
      install_multiple pipBase exec [] indexUrl fr up extraArgs dr vb = some (true, []) ∧
      uninstall_multiple pipBase exec [] extraArgs dr vb = some (true, []) ∧
      ensure_packages env pipBase exec (Requirements.str "") indexUrl extraArgs dr vb =
        some (true, []) ∧
      ensure_packages env pipBase exec (Requirements.list []) indexUrl extraArgs dr vb =
        some (true, []) ∧
      ensure_packages env pipBase exec (Requirements.dict []) indexUrl extraArgs dr vb =
        some (true, []) ∧
      async_install_multiple pipBase exec [] indexUrl fr up extraArgs dr vb =
        some (true, []) := by
  intros
  exact ⟨rfl, rfl, rfl, rfl, rfl, rfl⟩

/-! ## Claim C3. -/

/-- C3: when every requirement is met, reconciliation returns the empty unmet list
and `ensure_packages` returns `True` without issuing any install command; moreover
reconciliation is a pure function of the environment and the requirements, so a
second call against the unchanged environment returns the same result. -/
theorem reconcile_all_met_empty (env : Env) (pipBase : List String)
    (exec : List String → Nat × String × String) (reqs : Requirements)
    (indexUrl : Option String) (extraArgs : List String) (dryRun verbose : Bool)
    (h : requirementsAllMet env reqs = true) :
    get_packages_to_process env reqs = [] ∧
    ensure_packages env pipBase exec reqs indexUrl extraArgs dryRun verbose =
      some (true, []) ∧
    get_packages_to_process env reqs = get_packages_to_process env reqs := by
  have hpp : get_packages_to_process env reqs = [] := by
    cases reqs with
    | str s =>
      by_cases h0 : s = ""
      · simp [get_packages_to_process, h0]
      · have hall : [s].all (listItemMet env) = true := by
          simpa [requirementsAllMet] using h
        simpa [get_packages_to_process, h0] using goList_all_met env [s] hall []
    | list l => exact goList_all_met env l (by simpa [requirementsAllMet] using h) []
    | dict d => exact goDict_all_met env d (by simpa [requirementsAllMet] using h) []
  refine ⟨hpp, ?_, rfl⟩
  unfold ensure_packages
  by_cases he : requirementsEmpty reqs = true
  · simp only [he, if_true]
  · simp only [Bool.not_eq_true] at he
    simp only [he, Bool.false_eq_true, if_false, hpp]

/-- Witness for C3: numpy 1.21 installed meets the requirement `numpy>=1.20`. -/
theorem reconcile_all_met_empty_witness :
    requirementsAllMet [("numpy", { release := [1, 21], pre := none })]
      (Requirements.list ["numpy>=1.20"]) = true ∧
    (get_packages_to_process [("numpy", { release := [1, 21], pre := none })]
        (Requirements.list ["numpy>=1.20"]) = [] ∧
      ensure_packages [("numpy", { release := [1, 21], pre := none })]
          ["python", "-m", "pip"] (fun _ => (0, "", ""))
          (Requirements.list ["numpy>=1.20"]) none [] false false = some (true, []) ∧
      get_packages_to_process [("numpy", { release := [1, 21], pre := none })]
          (Requirements.list ["numpy>=1.20"]) =
        get_packages_to_process [("numpy", { release := [1, 21], pre := none })]
          (Requirements.list ["numpy>=1.20"])) :=
  ⟨by decide,
   reconcile_all_met_empty [("numpy", { release := [1, 21], pre := none })]
     ["python", "-m", "pip"] (fun _ => (0, "", ""))
     (Requirements.list ["numpy>=1.20"]) none [] false false (by decide)⟩

/-! ## Claim C7. -/

/-- C7 counterexample: the claim quantifies over every command, but a dry run of the
empty command list raises an uncaught `IndexError` at `command[0]` instead of
returning `(True, message)` — in the model, the result is `none` rather than
`some` of a successful outcome. -/
theorem run_command_dry_empty_command_raises :
    run_command ["python", "-m", "pip"] (fun _ => (0, "", "")) [] false true false =
      none := rfl

/-- C7 (amended to nonempty commands): a dry run never spawns the external process
(`spawned = []`), returns success `True`, and its message is the descriptive string
`Dry run: Command would be '...'` echoing the full command line — the pip base and
the command's arguments, with `--dry-run` possibly inserted for
install/uninstall/download commands. -/
theorem run_command_dry_no_spawn (pipBase : List String)
    (exec : List String → Nat × String × String) (command : List String)
    (captureOutput verbose : Bool) (h : command ≠ []) :
    ∃ r, run_command pipBase exec command captureOutput true verbose = some r ∧
      r.success = true ∧ r.spawned = [] ∧
      ∃ echoed, r.message = "Dry run: Command would be " ++ sq ++ echoed ++ sq ∧
        (echoed = String.intercalate spaceStr (pipBase ++ command) ∨
         ∃ preArgs postArgs, command = preArgs ++ postArgs ∧
           echoed = String.intercalate spaceStr
             (pipBase ++ preArgs ++ ["--dry-run"] ++ postArgs)) := by
  have hrc : run_command pipBase exec command captureOutput true verbose =
      dryRunOutcome pipBase command := rfl
  rw [hrc]
  cases command with
  | nil => exact absurd rfl h
  | cons c0 rest =>
    simp only [dryRunOutcome]
    by_cases hc : (c0 == "install" || c0 == "uninstall" || c0 == "download") = true
    · rw [if_pos hc]
      cases hp : insertPos (c0 :: rest) with
      | some i =>
        refine ⟨_, rfl, rfl, rfl, _, rfl, Or.inr ⟨(c0 :: rest).take i, (c0 :: rest).drop i,
          (List.take_append_drop i (c0 :: rest)).symm, ?_⟩⟩
        simp [List.append_assoc]
      | none =>
        refine ⟨_, rfl, rfl, rfl, _, rfl, Or.inr ⟨c0 :: rest, [], by simp, ?_⟩⟩
        simp [List.append_assoc]
    · rw [if_neg hc]
      exact ⟨_, rfl, rfl, rfl, _, rfl, Or.inl rfl⟩

/-- Witness for the amended C7 at a concrete install command. -/
theorem run_command_dry_no_spawn_witness :
    (["install", "--upgrade", "numpy"] : List String) ≠ [] ∧
    (∃ r, run_command ["python", "-m", "pip"] (fun _ => (0, "", ""))
        ["install", "--upgrade", "numpy"] false true false = some r ∧
      r.success = true ∧ r.spawned = [] ∧
      ∃ echoed, r.message = "Dry run: Command would be " ++ sq ++ echoed ++ sq ∧
        (echoed = String.intercalate spaceStr
            (["python", "-m", "pip"] ++ ["install", "--upgrade", "numpy"]) ∨
         ∃ preArgs postArgs,
           (["install", "--upgrade", "numpy"] : List String) = preArgs ++ postArgs ∧
           echoed = String.intercalate spaceStr
             (["python", "-m", "pip"] ++ preArgs ++ ["--dry-run"] ++ postArgs))) :=
  ⟨by decide,
   run_command_dry_no_spawn ["python", "-m", "pip"] (fun _ => (0, "", ""))
     ["install", "--upgrade", "numpy"] false false (by decide)⟩

/-! ## Claim C8. -/

/-- C8: when the pip-audit executable is not found on the PATH, both the synchronous
and the asynchronous `check_vulnerabilities` return `(True, "pip-audit not found.")`
— vulnerabilities conservatively assumed — without spawning anything; being total
functions of the model, they raise no exception. -/
theorem check_vulnerabilities_tool_missing
    (which : String → Option String) (runShell : List String → Nat × String × String)
    (pn rf : Option String) (extraArgs : List String)
    (h : which "pip-audit" = none) :
    check_vulnerabilities which runShell pn rf extraArgs =
      ((true, "pip-audit not found."), []) ∧
    async_check_vulnerabilities which runShell pn rf extraArgs =
      ((true, "pip-audit not found."), []) := by
  unfold check_vulnerabilities async_check_vulnerabilities
  rw [h]
  exact ⟨rfl, rfl⟩

/-- Witness for C8 with a PATH lookup that never finds the tool. -/
theorem check_vulnerabilities_tool_missing_witness :
    (fun (_ : String) => (none : Option String)) "pip-audit" = none ∧
    (check_vulnerabilities (fun _ => none) (fun _ => (0, "", "")) none none [] =
      ((true, "pip-audit not found."), []) ∧
    async_check_vulnerabilities (fun _ => none) (fun _ => (0, "", "")) none none [] =
      ((true, "pip-audit not found."), [])) :=
  ⟨rfl,
   check_vulnerabilities_tool_missing (fun _ => none) (fun _ => (0, "", ""))
     none none [] rfl⟩

/-! ## Helper lemmas for the batch-flags claim. -/

/-- Every `run_command` outcome records exactly the pip command it was handed. -/
lemma run_command_constructed (pipBase : List String)
    (exec : List String → Nat × String × String) (command : List String)
    (cap dr vb : Bool) (r : RunOutcome)
    (h : run_command pipBase exec command cap dr vb = some r) :
    r.constructed = command := by
  cases dr with
  | true =>
    have h' : dryRunOutcome pipBase command = some r := h
    cases command with
    | nil => simp [dryRunOutcome] at h'
    | cons c0 rest =>
      simp only [dryRunOutcome] at h'
      by_cases hc : (c0 == "install" || c0 == "uninstall" || c0 == "download") = true
      · rw [if_pos hc] at h'
        rw [← Option.some.inj h']
      · rw [if_neg hc] at h'
        rw [← Option.some.inj h']
  | false =>
    unfold run_command at h
    simp only [Bool.false_eq_true, if_false] at h
    rcases hx : exec (pipBase ++ command) with ⟨code, out, err⟩
    simp only [hx] at h
    split at h <;> rw [← Option.some.inj h]

/-- Every async `_run_command` outcome records exactly the pip command it was
handed. -/
lemma async_run_command_constructed (pipBase : List String)
    (exec : List String → Nat × String × String) (command : List String)
    (cap dr vb : Bool) (r : RunOutcome)
    (h : async_run_command pipBase exec command cap dr vb = some r) :
    r.constructed = command := by
  cases dr with
  | true => exact run_command_constructed pipBase exec command false true false r h
  | false =>
    unfold async_run_command at h
    simp only [Bool.false_eq_true, if_false] at h
    rcases hx : exec (pipBase ++ command) with ⟨code, out, err⟩
    simp only [hx] at h
    split at h <;> rw [← Option.some.inj h]

/-- Every element of the list loop's output is a parseable requirement string. -/
lemma goList_mem_parses (env : Env) (l : List String) :
    ∀ processed p, p ∈ goList env l processed → (parseRequirement p).isSome = true := by
  induction l with
  | nil => intro processed p hp; simp [goList] at hp
  | cons item rest ih =>
    intro processed p hp
    cases hk : parseRequirement item with
    | none =>
      simp only [goList, hk] at hp
      exact ih processed p hp
    | some r =>
      simp only [goList, hk] at hp
      by_cases hc : processed.contains r.name = true
      · simp only [hc] at hp
        exact ih processed p hp
      · simp only [Bool.not_eq_true] at hc
        simp only [hc] at hp
        by_cases hi : is_installed env r.name
            (if r.rawSpec = "" then none else some r.rawSpec) = true
        · simp only [hi] at hp
          exact ih _ p hp
        · simp only [Bool.not_eq_true] at hi
          simp only [hi] at hp
          have hp' : p ∈ item :: goList env rest (r.name :: processed) := hp
          rcases List.mem_cons.mp hp' with h1 | h1
          · subst h1; simp [hk]
          · exact ih _ p h1

/-- Every element of the dictionary loop's output is a parsed name concatenated
with the entry's specifier text. -/
lemma goDict_mem_shape (env : Env) (d : List (String × Option String)) :
    ∀ processed p, p ∈ goDict env d processed →
      ∃ (r : Req) (v : Option String), (∃ k, parseRequirement k = some r) ∧
        p = r.name ++ v.getD "" := by
  induction d with
  | nil => intro processed p hp; simp [goDict] at hp
  | cons e rest ih =>
    intro processed p hp
    obtain ⟨k, v⟩ := e
    cases hk : parseRequirement k with
    | none =>
      simp only [goDict, hk] at hp
      exact ih processed p hp
    | some r =>
      simp only [goDict, hk] at hp
      by_cases hi : is_installed env r.name v = true
      · simp only [hi] at hp
        exact ih _ p hp
      · simp only [Bool.not_eq_true] at hi
        simp only [hi] at hp
        have hp' : p ∈ (r.name ++ v.getD "") :: goDict env rest (r.name :: processed) := hp
        rcases List.mem_cons.mp hp' with h1 | h1
        · exact ⟨r, v, ⟨k, hk⟩, h1⟩
        · exact ih _ p h1

/-- The name of a successfully built requirement is the recorded name characters. -/
lemma mkReq_name (nameChars specChars : List Char) (r : Req)
    (h : mkReq nameChars specChars = some r) : r.name = nameChars.asString := by
  cases specChars with
  | nil =>
    rw [← Option.some.inj h]
  | cons a as =>
    simp only [mkReq] at h
    cases hc : parseClauses (a :: as) with
    | none => rw [hc] at h; simp at h
    | some sp =>
      rw [hc] at h
      rw [← Option.some.inj h]

/-- The name of a parsed requirement is nonempty and starts with an alphanumeric
character. -/
lemma parseRequirement_name_head (s : String) (r : Req)
    (h : parseRequirement s = some r) :
    ∃ c t, r.name.data = c :: t ∧ c.isAlphanum = true := by
  unfold parseRequirement parseReqChars at h
  cases ht : (s.data.dropWhile (fun c => c == ' ')).takeWhile isNameChar with
  | nil => rw [ht] at h; simp [parseReqSplit] at h
  | cons c nr =>
    rw [ht] at h
    simp only [parseReqSplit] at h
    by_cases ha : c.isAlphanum = true
    · rw [if_pos ha] at h
      have hn := mkReq_name _ _ _ h
      exact ⟨c, nr, by rw [hn]; rfl, ha⟩
    · rw [if_neg ha] at h; simp at h

/-- A dictionary-rendered unmet entry is never the `--force-reinstall` flag: its
first character is alphanumeric. -/
lemma rendered_ne_flag (r : Req) (v : Option String)
    (hr : ∃ k, parseRequirement k = some r) :
    r.name ++ v.getD "" ≠ "--force-reinstall" := by
  obtain ⟨k, hk⟩ := hr
  obtain ⟨c, t, hd, ha⟩ := parseRequirement_name_head k r hk
  intro hco
  have hdq : (r.name ++ v.getD "").data = "--force-reinstall".data :=
    congrArg String.data hco
  rw [String.data_append, hd] at hdq
  have hlit : "--force-reinstall".data = '-' :: "-force-reinstall".data := rfl
  rw [hlit] at hdq
  have hc' : c = '-' := (List.cons.inj hdq).1
  rw [hc'] at ha
  exact absurd ha (by decide)

/-- No element of a reconciliation result is the `--force-reinstall` flag. -/
lemma get_packages_to_process_ne_flag (env : Env) (reqs : Requirements) (p : String)
    (hp : p ∈ get_packages_to_process env reqs) : p ≠ "--force-reinstall" := by
  have hflag : parseRequirement "--force-reinstall" = none := by decide
  cases reqs with
  | str s =>
    simp only [get_packages_to_process] at hp
    by_cases h0 : s = ""
    · simp [h0] at hp
    · rw [if_neg h0] at hp
      have hps := goList_mem_parses env [s] [] p hp
      intro he; subst he; rw [hflag] at hps; simp at hps
  | list l =>
    have hps := goList_mem_parses env l [] p hp
    intro he; subst he; rw [hflag] at hps; simp at hps
  | dict d =>
    obtain ⟨r, v, hr, hpe⟩ := goDict_mem_shape env d [] p hp
    exact hpe ▸ rendered_ne_flag r v hr

/-- The batch command built with `force_reinstall=False, upgrade=True` contains
`--upgrade` and, when neither the extra arguments nor the index URL nor the
packages smuggle it in, not `--force-reinstall`. -/
lemma installMultipleCommand_flags (packages : List String) (indexUrl : Option String)
    (extraArgs : List String)
    (h1 : "--force-reinstall" ∉ extraArgs) (h2 : indexUrl ≠ some "--force-reinstall")
    (h3 : ∀ p ∈ packages, p ≠ "--force-reinstall") :
    "--upgrade" ∈ installMultipleCommand packages indexUrl false true extraArgs ∧
    "--force-reinstall" ∉ installMultipleCommand packages indexUrl false true extraArgs := by
  constructor
  · simp [installMultipleCommand]
  · intro hmem
    cases indexUrl with
    | none =>
      simp [installMultipleCommand, indexUrlArgs, List.mem_append, List.mem_cons] at hmem
      rcases hmem with h | h
      all_goals first
        | exact h1 h
        | exact h3 _ h rfl
    | some u =>
      simp [installMultipleCommand, indexUrlArgs, List.mem_append, List.mem_cons] at hmem
      rcases hmem with h | h | h
      all_goals first
        | exact h1 h
        | exact h3 _ h rfl
        | exact h2 (by rw [h])

/-- A `run_command` on an install command always returns a result (the dry-run
`IndexError` needs an empty command, and `install` is in the dry-run allowlist). -/
lemma run_command_install_some (pipBase : List String)
    (exec : List String → Nat × String × String) (rest : List String)
    (cap dr vb : Bool) :
    ∃ r, run_command pipBase exec ("install" :: rest) cap dr vb = some r := by
  cases dr with
  | true =>
    have hrc : run_command pipBase exec ("install" :: rest) cap true vb =
        dryRunOutcome pipBase ("install" :: rest) := rfl
    rw [hrc]
    simp only [dryRunOutcome]
    rw [if_pos (by decide :
      (("install" == "install" || "install" == "uninstall" ||
        "install" == "download") = true))]
    exact ⟨_, rfl⟩
  | false =>
    unfold run_command
    simp only [Bool.false_eq_true, if_false]
    rcases hx : exec (pipBase ++ "install" :: rest) with ⟨code, out, err⟩
    simp only [hx]
    by_cases h0 : code = 0
    · rw [if_pos h0]; exact ⟨_, rfl⟩
    · rw [if_neg h0]; exact ⟨_, rfl⟩

/-! ## Claim C10. -/

/-- C10: every batch install that `ensure_packages` issues (synchronous or
asynchronous) is built with `force_reinstall=False, upgrade=True`: the constructed
command always contains `--upgrade` and never `--force-reinstall` (assuming the
caller does not smuggle the flag in through `extra_args` or `index_url`),
regardless of whether each unmet requirement was missing or incompatible; by
contrast, `install_if_missing` on an installed package whose specifier is unmet
issues a command containing `--force-reinstall`. -/
theorem ensure_packages_upgrade_no_force (env : Env) (pipBase : List String)
    (exec : List String → Nat × String × String) (reqs : Requirements)
    (indexUrl : Option String) (extraArgs : List String) (dryRun verbose : Bool)
    (h1 : "--force-reinstall" ∉ extraArgs)
    (h2 : indexUrl ≠ some "--force-reinstall") :
    (∀ b tr, ensure_packages env pipBase exec reqs indexUrl extraArgs dryRun verbose =
        some (b, tr) →
      ∀ r ∈ tr, "--upgrade" ∈ r.constructed ∧ "--force-reinstall" ∉ r.constructed) ∧
    (∀ b tr, async_ensure_packages env pipBase exec reqs indexUrl extraArgs dryRun
        verbose = some (b, tr) →
      ∀ r ∈ tr, "--upgrade" ∈ r.constructed ∧ "--force-reinstall" ∉ r.constructed) ∧
    (∀ (package s : String) (req : Req),
      parseRequirement package = some req →
      is_installed env req.name none = true →
      s ≠ "" →
      is_version_compatible env req.name s = false →
      ∃ b tr, install_if_missing env pipBase exec package (some s) false indexUrl
          extraArgs dryRun verbose = some (b, tr) ∧
        ∃ r, r ∈ tr ∧ "--force-reinstall" ∈ r.constructed) := by
  refine ⟨?_, ?_, ?_⟩
  · intro b tr hens r hr
    unfold ensure_packages at hens
    by_cases he : requirementsEmpty reqs = true
    · rw [if_pos he] at hens
      obtain ⟨-, htr⟩ := Prod.mk.inj (Option.some.inj hens)
      rw [← htr] at hr
      simp at hr
    · rw [if_neg he] at hens
      cases hpp : get_packages_to_process env reqs with
      | nil =>
        rw [hpp] at hens
        have hens' : some ((true : Bool), ([] : List RunOutcome)) = some (b, tr) := hens
        obtain ⟨-, htr⟩ := Prod.mk.inj (Option.some.inj hens')
        rw [← htr] at hr
        simp at hr
      | cons p ps =>
        rw [hpp] at hens
        have hens' : install_multiple pipBase exec (p :: ps) indexUrl false true
            extraArgs dryRun verbose = some (b, tr) := hens
        unfold install_multiple at hens'
        rw [if_neg (List.cons_ne_nil p ps)] at hens'
        cases hrc : run_command pipBase exec
            (installMultipleCommand (p :: ps) indexUrl false true extraArgs)
            (!verbose) dryRun verbose with
        | none => rw [hrc] at hens'; simp at hens'
        | some r0 =>
          rw [hrc] at hens'
          have hens'' : some (r0.success, [r0]) = some (b, tr) := hens'
          obtain ⟨-, htr⟩ := Prod.mk.inj (Option.some.inj hens'')
          rw [← htr] at hr
          have hr0 : r = r0 := by simpa using hr
          subst hr0
          rw [run_command_constructed _ _ _ _ _ _ _ hrc]
          refine installMultipleCommand_flags (p :: ps) indexUrl extraArgs h1 h2 ?_
          intro q hq
          exact get_packages_to_process_ne_flag env reqs q (by rw [hpp]; exact hq)
  · intro b tr hens r hr
    unfold async_ensure_packages at hens
    cases hpp : get_packages_to_process env reqs with
    | nil =>
      rw [hpp] at hens
      have hens' : some ((true : Bool), ([] : List RunOutcome)) = some (b, tr) := hens
      obtain ⟨-, htr⟩ := Prod.mk.inj (Option.some.inj hens')
      rw [← htr] at hr
      simp at hr
    | cons p ps =>
      rw [hpp] at hens
      have hens' : async_install_multiple pipBase exec (p :: ps) indexUrl false true
          extraArgs dryRun verbose = some (b, tr) := hens
      unfold async_install_multiple at hens'
      rw [if_neg (List.cons_ne_nil p ps)] at hens'
      cases hrc : async_run_command pipBase exec
          (installMultipleCommand (p :: ps) indexUrl false true extraArgs)
          false dryRun verbose with
      | none => rw [hrc] at hens'; simp at hens'
      | some r0 =>
        rw [hrc] at hens'
        have hens'' : some (r0.success, [r0]) = some (b, tr) := hens'
        obtain ⟨-, htr⟩ := Prod.mk.inj (Option.some.inj hens'')
        rw [← htr] at hr
        have hr0 : r = r0 := by simpa using hr
        subst hr0
        rw [async_run_command_constructed _ _ _ _ _ _ _ hrc]
        refine installMultipleCommand_flags (p :: ps) indexUrl extraArgs h1 h2 ?_
        intro q hq
        exact get_packages_to_process_ne_flag env reqs q (by rw [hpp]; exact hq)
  · intro package s req hparse hinst hsne hcompat
    have hstep : install_if_missing env pipBase exec package (some s) false indexUrl
        extraArgs dryRun verbose =
      install pipBase exec
        (if req.rawSpec ≠ "" then package else req.name ++ s) indexUrl true true
        extraArgs dryRun verbose := by
      unfold install_if_missing
      simp only [hparse]
      simp only [pyOrStr]
      rw [if_neg hsne]
      rw [if_pos hinst]
      simp only [hcompat]
      rw [if_pos (by decide : ((!false || false) = true))]
      rfl
    rw [hstep]
    have hcmd : installCommand (if req.rawSpec ≠ "" then package else req.name ++ s)
        indexUrl true true extraArgs =
      "install" :: "--upgrade" :: "--force-reinstall" ::
        (indexUrlArgs indexUrl ++ extraArgs ++
          [if req.rawSpec ≠ "" then package else req.name ++ s]) := by
      simp [installCommand]
    obtain ⟨r0, hr0⟩ := run_command_install_some pipBase exec
      ("--upgrade" :: "--force-reinstall" ::
        (indexUrlArgs indexUrl ++ extraArgs ++
          [if req.rawSpec ≠ "" then package else req.name ++ s]))
      false dryRun verbose
    refine ⟨r0.success, [r0], ?_, r0, List.mem_singleton.mpr rfl, ?_⟩
    · unfold install
      rw [hcmd, hr0]
    · rw [run_command_constructed _ _ _ _ _ _ _ hr0]
      simp

/-- Witness for C10 with a one-package environment needing an upgrade. -/
theorem ensure_packages_upgrade_no_force_witness :
    ("--force-reinstall" ∉ ([] : List String)) ∧
    ((none : Option String) ≠ some "--force-reinstall") ∧
    ((∀ b tr, ensure_packages [("requests", { release := [1, 0], pre := none })]
        ["python", "-m", "pip"] (fun _ => (0, "", ""))
        (Requirements.list ["requests>=2.0"]) none [] false false = some (b, tr) →
      ∀ r ∈ tr, "--upgrade" ∈ r.constructed ∧ "--force-reinstall" ∉ r.constructed) ∧
    (∀ b tr, async_ensure_packages [("requests", { release := [1, 0], pre := none })]
        ["python", "-m", "pip"] (fun _ => (0, "", ""))
        (Requirements.list ["requests>=2.0"]) none [] false false = some (b, tr) →
      ∀ r ∈ tr, "--upgrade" ∈ r.constructed ∧ "--force-reinstall" ∉ r.constructed) ∧
    (∀ (package s : String) (req : Req),
      parseRequirement package = some req →
      is_installed [("requests", { release := [1, 0], pre := none })] req.name none =
        true →
      s ≠ "" →
      is_version_compatible [("requests", { release := [1, 0], pre := none })]
        req.name s = false →
      ∃ b tr, install_if_missing [("requests", { release := [1, 0], pre := none })]
          ["python", "-m", "pip"] (fun _ => (0, "", "")) package (some s) false none
          [] false false = some (b, tr) ∧
        ∃ r, r ∈ tr ∧ "--force-reinstall" ∈ r.constructed)) :=
  ⟨by decide, by decide,
   ensure_packages_upgrade_no_force [("requests", { release := [1, 0], pre := none })]
     ["python", "-m", "pip"] (fun _ => (0, "", ""))
     (Requirements.list ["requests>=2.0"]) none [] false false
     (by decide) (by decide)⟩

end Pipmaster
